import Mathlib

/-!
Verification of the OIDC auth-method update path of the boundary repository,
together with the generic ORM read/writer's field-mask update.

The repository slice at hand contains the tests of the OIDC update path
(`repository_auth_method_update_test.go`) and the generic `GormReadWriter`
(`db` package).  The OIDC repository functions themselves
(`valueObjectChanges`, `applyUpdate`, `validateFieldMask`,
`UpdateAuthMethod`, `ValidateDiscoveryInfo`) are not part of the slice, so
they are modelled from the specification (spec.md sections 4.1 to 4.4); the
`GormReadWriter.Update` embedding is a direct translation of the Go source.
-/

namespace BoundaryOidc

/-- Error kinds surfaced by the update path (spec section 7). -/
inductive ErrCode where
  | InvalidParameter
  | EmptyFieldMask
  | RecordNotFound
  | VersionMismatch
  | Unknown
deriving DecidableEq, Repr

/-- An error value: a kind together with a message. -/
structure Err where
  code : ErrCode
  msg : String
deriving DecidableEq, Repr

deriving instance DecidableEq for Except

/-- Typed value objects owned by a parent auth method, one constructor per
recognized value-object kind (spec section 3, "Value Object"). -/
inductive ValueObject where
  | SigningAlg (oidcMethodId : String) (alg : String)
  | Certificate (oidcMethodId : String) (cert : String)
  | AudClaim (oidcMethodId : String) (aud : String)
  | CallbackUrl (oidcMethodId : String) (url : String)
deriving DecidableEq, Repr

/-- Returns true when the list contains a repeated entry. -/
def hasDup : List String → Bool
  | [] => false
  | x :: xs => xs.contains x || hasDup xs

/-- The four recognized value-object kinds; the kind names coincide with the
field-mask attribute names used by the tests. -/
def recognizedVoKinds : List String :=
  ["SigningAlgs", "Certificates", "AudClaims", "CallbackUrls"]

/-- Builds the typed value object of a recognized kind for a parent id and a
raw string value. -/
def mkVO (voKind parentId v : String) : ValueObject :=
  if voKind = "SigningAlgs" then ValueObject.SigningAlg parentId v
  else if voKind = "Certificates" then ValueObject.Certificate parentId v
  else if voKind = "AudClaims" then ValueObject.AudClaim parentId v
  else ValueObject.CallbackUrl parentId v

/-- Modelled from the spec: the Value-Object Differ `valueObjectChanges`
(spec section 4.1), whose implementation is not part of the source slice
(only its test `Test_valueObjectChanges` is).  Fails with `InvalidParameter`
on an empty parent id, an unrecognized kind, or duplicate entries; when the
kind is absent from both the field mask and the null-fields list it returns
empty add/delete sets; otherwise `toAdd` lists the new-minus-old elements in
first-occurrence order of `newValues` and `toDelete` the old-minus-new
elements. -/
def valueObjectChanges (parentId voKind : String)
    (newValues oldValues dbMask nullFields : List String) :
    Except Err (List ValueObject × List ValueObject) :=
  if parentId = "" then
    Except.error { code := ErrCode.InvalidParameter, msg := "missing public id" }
  else if !recognizedVoKinds.contains voKind then
    Except.error { code := ErrCode.InvalidParameter, msg := "invalid value object name" }
  else if hasDup newValues then
    Except.error { code := ErrCode.InvalidParameter, msg := "duplicate new values" }
  else if hasDup oldValues then
    Except.error { code := ErrCode.InvalidParameter, msg := "duplicate old values" }
  else if dbMask.contains voKind || nullFields.contains voKind then
    Except.ok
      ((newValues.filter (fun v => !oldValues.contains v)).map (mkVO voKind parentId),
       (oldValues.filter (fun v => !newValues.contains v)).map (mkVO voKind parentId))
  else
    Except.ok ([], [])

/-- The aggregate root (spec section 3): scalar attributes, the four
multi-valued attributes, and the concurrency version. -/
structure AuthMethod where
  PublicId : String
  Name : String
  Description : String
  OperationalState : String
  DisableDiscoveredConfigValidation : Bool
  DiscoveryUrl : String
  ClientId : String
  ClientSecret : String
  MaxAge : Int
  SigningAlgs : List String
  CallbackUrls : List String
  AudClaims : List String
  Certificates : List String
  Version : Nat
deriving DecidableEq, Repr

/-- Operational state: not yet serving traffic. -/
def InactiveState : String := "inactive"

/-- Operational state: active, limited visibility. -/
def ActivePrivateState : String := "active-private"

/-- Operational state: active, public visibility. -/
def ActivePublicState : String := "active-public"

/-- Returns true for the two active operational states. -/
def isActiveState (s : String) : Bool :=
  s == ActivePrivateState || s == ActivePublicState

/-- Modelled from the spec: one step of the Field-Mask Applier `applyUpdate`
(spec section 4.2), missing from the source slice (only `Test_applyUpdate`
is present): copies the single attribute named by a mask entry from the new
record onto the working copy; an entry naming no settable attribute leaves
the copy unchanged. -/
def applyStep (amNew cp : AuthMethod) (f : String) : AuthMethod :=
  if f = "Name" then { cp with Name := amNew.Name }
  else if f = "Description" then { cp with Description := amNew.Description }
  else if f = "DiscoveryUrl" then { cp with DiscoveryUrl := amNew.DiscoveryUrl }
  else if f = "ClientId" then { cp with ClientId := amNew.ClientId }
  else if f = "ClientSecret" then { cp with ClientSecret := amNew.ClientSecret }
  else if f = "MaxAge" then { cp with MaxAge := amNew.MaxAge }
  else if f = "SigningAlgs" then { cp with SigningAlgs := amNew.SigningAlgs }
  else if f = "CallbackUrls" then { cp with CallbackUrls := amNew.CallbackUrls }
  else if f = "AudClaims" then { cp with AudClaims := amNew.AudClaims }
  else if f = "Certificates" then { cp with Certificates := amNew.Certificates }
  else cp

/-- Modelled from the spec: the Field-Mask Applier `applyUpdate` (spec
section 4.2), missing from the source slice: for every attribute named in
the field mask, copy the value from the new record onto a clone of the
original; attributes not named, including operational state and version,
keep their original value. -/
def applyUpdate (amNew orig : AuthMethod) : List String → AuthMethod
  | [] => orig
  | f :: rest => applyUpdate amNew (applyStep amNew orig f) rest

/-- The recognized set of settable attribute names (spec section 4.2). -/
def allowedMaskFields : List String :=
  ["Name", "Description", "DiscoveryUrl", "ClientId", "ClientSecret",
   "MaxAge", "SigningAlgs", "CallbackUrls", "AudClaims", "Certificates"]

/-- Modelled from the spec: the field-mask validator (spec sections 4.2 and
4.4 step 1), missing from the source slice (only `Test_validateFieldMask`
is present): rejects with `InvalidParameter` the first mask entry outside
the recognized attribute set. -/
def validateFieldMask : List String → Except Err Unit
  | [] => Except.ok ()
  | f :: rest =>
    if allowedMaskFields.contains f then validateFieldMask rest
    else Except.error { code := ErrCode.InvalidParameter, msg := "invalid field mask" }

/-- The external identity-provider discovery client (spec section 6),
abstracted as two oracles keyed by the discovery URL: whether the issuer
metadata resolves to a valid provider, and the JWKS transport failure
detail when the JWKS fetch fails (`none` means success). -/
structure DiscoveryEnv where
  providerOk : String → Bool
  jwksFailure : String → Option String

/-- Modelled from the spec: the Completeness Validator on an in-memory
candidate record (spec section 4.3), missing from the source slice (only
`Test_ValidateDiscoveryInfo` is present).  Checks in order: at least one
signing algorithm, a discovery URL convertible to a valid provider, and a
successful JWKS fetch (a transport failure surfaces as an `Unknown` error
carrying the failure detail). -/
def validateDiscoveryInfoRecord (env : DiscoveryEnv) (am : AuthMethod) : Except Err Unit :=
  if am.SigningAlgs.isEmpty then
    Except.error { code := ErrCode.InvalidParameter, msg := "missing signing algorithms" }
  else if !env.providerOk am.DiscoveryUrl then
    Except.error { code := ErrCode.InvalidParameter,
                   msg := "AuthMethod cannot be converted to a valid OIDC Provider" }
  else
    match env.jwksFailure am.DiscoveryUrl with
    | some detail => Except.error { code := ErrCode.Unknown, msg := detail }
    | none => Except.ok ()

/-- The stored state the orchestrator acts on: the auth-method rows and the
append-only audit log (oplog) of public ids updated. -/
structure Store where
  methods : List AuthMethod
  auditLog : List String
deriving DecidableEq, Repr

/-- Looks an auth method up by public id. -/
def lookupAuthMethod (s : Store) (pid : String) : Option AuthMethod :=
  s.methods.find? (fun m => m.PublicId == pid)

/-- Modelled from the spec: `ValidateDiscoveryInfo` entry point (spec
section 4.3), missing from the source slice: accepts the candidate either
as an explicit in-memory record or as a public id to be loaded fresh, and
fails with `InvalidParameter` when neither is supplied. -/
def ValidateDiscoveryInfo (env : DiscoveryEnv) (s : Store)
    (withAuthMethod : Option AuthMethod) (withPublicId : Option String) :
    Except Err Unit :=
  match withAuthMethod with
  | some am => validateDiscoveryInfoRecord env am
  | none =>
    match withPublicId with
    | some pid =>
      match lookupAuthMethod s pid with
      | some am => validateDiscoveryInfoRecord env am
      | none => Except.error { code := ErrCode.RecordNotFound, msg := "auth method not found" }
    | none =>
      Except.error { code := ErrCode.InvalidParameter,
                     msg := "you must supply either an auth method or a public id" }

/-- Modelled from the spec: step 4 of the Update Orchestrator (spec section
4.4), missing from the source slice: runs the Value-Object Differ for each
of the four kinds against the incoming record's values versus the loaded
values, with the update's field mask. -/
def voChangesAll (pid : String) (amNew orig : AuthMethod) (mask : List String) :
    Except Err (List ValueObject × List ValueObject) :=
  match valueObjectChanges pid "SigningAlgs" amNew.SigningAlgs orig.SigningAlgs mask [],
        valueObjectChanges pid "Certificates" amNew.Certificates orig.Certificates mask [],
        valueObjectChanges pid "AudClaims" amNew.AudClaims orig.AudClaims mask [],
        valueObjectChanges pid "CallbackUrls" amNew.CallbackUrls orig.CallbackUrls mask [] with
  | Except.ok (a1, d1), Except.ok (a2, d2), Except.ok (a3, d3), Except.ok (a4, d4) =>
    Except.ok (a1 ++ a2 ++ a3 ++ a4, d1 ++ d2 ++ d3 ++ d4)
  | Except.error e, _, _, _ => Except.error e
  | _, Except.error e, _, _ => Except.error e
  | _, _, Except.error e, _ => Except.error e
  | _, _, _, Except.error e => Except.error e

/-- Modelled from the spec: the merge step of the Update Orchestrator (spec
section 4.4 step 3 together with the force flag of section 3): the
field-mask merge, with the discovery-validation-bypass flag raised when the
force option is set. -/
def mergedOf (amNew orig : AuthMethod) (mask : List String) (force : Bool) : AuthMethod :=
  if force then
    { applyUpdate amNew orig mask with DisableDiscoveredConfigValidation := true }
  else
    applyUpdate amNew orig mask

/-- Modelled from the spec: step 5 of the Update Orchestrator (spec section
4.4): when the candidate state is active and force was not requested, the
Completeness Validator runs and a failure surfaces as `InvalidParameter`
with the validator's message; otherwise the gate passes. -/
def completenessGate (env : DiscoveryEnv) (am : AuthMethod) (force : Bool) : Option Err :=
  if isActiveState am.OperationalState && !force then
    match validateDiscoveryInfoRecord env am with
    | Except.error e => some { code := ErrCode.InvalidParameter, msg := e.msg }
    | Except.ok _ => none
  else none

/-- Behavioral flags of an update request (spec section 3). -/
structure UpdateOpts where
  withForce : Bool
  withDryRun : Bool
deriving DecidableEq, Repr

/-- The triple returned by the orchestrator: the resulting record (when
any), the number of rows affected, and the error (when any). -/
structure UpdateResult where
  am : Option AuthMethod
  rowsAffected : Nat
  err : Option Err
deriving DecidableEq, Repr

/-- Persists an updated record: replaces the rows carrying its public id
and appends an audit-log entry for the update. -/
def storeUpdate (s : Store) (final : AuthMethod) : Store :=
  { methods := s.methods.map (fun m => if m.PublicId == final.PublicId then final else m),
    auditLog := s.auditLog ++ [final.PublicId] }

/-- Modelled from the spec: the Update Orchestrator `updateAuthMethod`
(spec section 4.4), missing from the source slice (only
`Test_UpdateAuthMethod` is present).  Validates inputs (steps 1), loads the
record (2), merges (3), diffs value objects (4), gates activation (5),
short-circuits no-ops (6), and persists with the optimistic version check
(7); in dry-run mode it skips step 7 and returns the synthesized record
with zero rows affected, still reporting the completeness-gate error. -/
def updateAuthMethod (env : DiscoveryEnv) (s : Store) (amOpt : Option AuthMethod)
    (expectedVersion : Nat) (fieldMask : List String) (opts : UpdateOpts) :
    UpdateResult × Store :=
  match amOpt with
  | none =>
    ({ am := none, rowsAffected := 0,
       err := some { code := ErrCode.InvalidParameter, msg := "missing AuthMethod" } }, s)
  | some am =>
    if am.PublicId = "" then
      ({ am := none, rowsAffected := 0,
         err := some { code := ErrCode.InvalidParameter, msg := "missing public id" } }, s)
    else if fieldMask = [] then
      ({ am := none, rowsAffected := 0,
         err := some { code := ErrCode.EmptyFieldMask, msg := "empty field mask" } }, s)
    else
      match validateFieldMask fieldMask with
      | Except.error e => ({ am := none, rowsAffected := 0, err := some e }, s)
      | Except.ok _ =>
        match lookupAuthMethod s am.PublicId with
        | none =>
          ({ am := none, rowsAffected := 0,
             err := some { code := ErrCode.RecordNotFound, msg := "auth method not found" } }, s)
        | some orig =>
          match voChangesAll am.PublicId am orig fieldMask with
          | Except.error e => ({ am := none, rowsAffected := 0, err := some e }, s)
          | Except.ok (adds, dels) =>
            if opts.withDryRun then
              ({ am := some (mergedOf am orig fieldMask opts.withForce), rowsAffected := 0,
                 err := completenessGate env (mergedOf am orig fieldMask opts.withForce)
                          opts.withForce }, s)
            else
              match completenessGate env (mergedOf am orig fieldMask opts.withForce)
                      opts.withForce with
              | some e => ({ am := none, rowsAffected := 0, err := some e }, s)
              | none =>
                if mergedOf am orig fieldMask opts.withForce = orig ∧ adds = [] ∧ dels = [] then
                  ({ am := some orig, rowsAffected := 0, err := none }, s)
                else if orig.Version = expectedVersion then
                  ({ am := some { mergedOf am orig fieldMask opts.withForce with
                                    Version := expectedVersion + 1 },
                     rowsAffected := 1, err := none },
                   storeUpdate s { mergedOf am orig fieldMask opts.withForce with
                                     Version := expectedVersion + 1 })
                else
                  ({ am := none, rowsAffected := 0,
                     err := some { code := ErrCode.VersionMismatch,
                                   msg := "update version does not match" } }, s)

/-- A discovery environment in which every provider resolves and every JWKS
fetch succeeds. -/
def envAllOk : DiscoveryEnv :=
  { providerOk := fun _ => true, jwksFailure := fun _ => none }

/-- A discovery environment in which no discovery URL resolves to a valid
provider. -/
def envBadProvider : DiscoveryEnv :=
  { providerOk := fun _ => false, jwksFailure := fun _ => none }

/-- A discovery environment in which providers resolve but every JWKS fetch
fails with a non-200 response. -/
def envNoJwks : DiscoveryEnv :=
  { providerOk := fun _ => true, jwksFailure := fun _ => some "non-200 response from jwks" }

/-- A sample stored auth method: inactive, complete, at version 1. -/
def amOrig : AuthMethod :=
  { PublicId := "ampub1", Name := "alice", Description := "restaurant",
    OperationalState := InactiveState, DisableDiscoveredConfigValidation := false,
    DiscoveryUrl := "https://issuer.example.com", ClientId := "cid", ClientSecret := "sec",
    MaxAge := 0, SigningAlgs := ["RS256"], CallbackUrls := ["https://cb.example.com"],
    AudClaims := ["aud1"], Certificates := ["pem1"], Version := 1 }

/-- An incoming update record renaming `amOrig`. -/
def amRenamed : AuthMethod := { amOrig with Name := "bob" }

/-- An incoming update record whose scalar fields equal those of `amOrig`
and whose value-object lists are empty. -/
def amSame : AuthMethod :=
  { amOrig with SigningAlgs := [], CallbackUrls := [], AudClaims := [], Certificates := [] }

/-- A candidate record with no signing algorithms. -/
def amNoAlgs : AuthMethod := { amOrig with SigningAlgs := [] }

/-- The sample record stored at version 5. -/
def amV5 : AuthMethod := { amOrig with Version := 5 }

/-- The sample record stored in the active-public state at version 2. -/
def amActive : AuthMethod := { amOrig with OperationalState := ActivePublicState, Version := 2 }

/-- A store holding `amOrig` and an empty audit log. -/
def storeOne : Store := { methods := [amOrig], auditLog := [] }

/-- A store holding `amV5` and an empty audit log. -/
def storeV5 : Store := { methods := [amV5], auditLog := [] }

/-- A store holding `amActive` and an empty audit log. -/
def storeActive : Store := { methods := [amActive], auditLog := [] }

end BoundaryOidc

namespace BoundaryDb

/-- A named sub-field of an exported embedded struct, as seen by the
reflection loop of `GormReadWriter.Update`; values are kept opaque as
strings. -/
structure GoSubField where
  name : String
  value : String
deriving DecidableEq, Repr

/-- The reflective shape of one exported struct field of the record passed
to `GormReadWriter.Update`: either a scalar carrying a value, or a
struct-kind field whose sub-fields are scanned. -/
inductive GoFieldKind where
  | scalar (value : String)
  | structKind (subs : List GoSubField)
deriving DecidableEq, Repr

/-- One exported top-level field of the record. -/
structure GoField where
  name : String
  kind : GoFieldKind
deriving DecidableEq, Repr

/-- The case-insensitive name comparison `strings.EqualFold` used by
`Update` to match mask paths against field names, modelled as simple
character-wise case folding. -/
def eqFold (a b : String) : Bool :=
  a.data.map Char.toLower == b.data.map Char.toLower

/-- Assignment into the `updateFields` Go map: any earlier binding of the
key is dropped and the new binding recorded. -/
def mapSet (m : List (String × String)) (k v : String) : List (String × String) :=
  (m.filter (fun p => !(p.1 == k))) ++ [(k, v)]

/-- Reads a key from the `updateFields` map representation. -/
def mapGet : List (String × String) → String → Option String
  | [], _ => none
  | (k, v) :: rest, q => if k = q then some v else mapGet rest q

/-- The body of the inner reflection loop of `GormReadWriter.Update` for a
single record field and mask path: a struct-kind field has its sub-fields
matched case-insensitively against the path (and its own name skipped via
the `continue`); a scalar field has its own name matched. -/
def applyPathField (path : String) (m : List (String × String)) (fld : GoField) :
    List (String × String) :=
  match fld.kind with
  | GoFieldKind.structKind subs =>
    subs.foldl (fun m sub => if eqFold sub.name path then mapSet m path sub.value else m) m
  | GoFieldKind.scalar v =>
    if eqFold fld.name path then mapSet m path v else m

/-- The inner loop of `GormReadWriter.Update` over the record's fields for
one mask path. -/
def applyPath (rec : List GoField) (m : List (String × String)) (path : String) :
    List (String × String) :=
  rec.foldl (applyPathField path) m

/-- The `updateFields` map built by `GormReadWriter.Update` from the record
and the field-mask paths. -/
def updateFields (rec : List GoField) (paths : List String) : List (String × String) :=
  paths.foldl (applyPath rec) []

/-- The values of the record fields matching a path, in scan order: the
sub-field values of struct-kind fields and the values of scalar fields
whose names compare equal under `eqFold`. -/
def fieldMatches (path : String) (fld : GoField) : List String :=
  match fld.kind with
  | GoFieldKind.scalar v => if eqFold fld.name path then [v] else []
  | GoFieldKind.structKind subs =>
    (subs.filter (fun sub => eqFold sub.name path)).map (fun sub => sub.value)

/-- All values in the record matching a path. -/
def matchingValues (rec : List GoField) (path : String) : List String :=
  (rec.map (fieldMatches path)).flatten

/-- The database calls `GormReadWriter.Update` issues through gorm. -/
inductive GormAction where
  | save (rec : List GoField)
  | updates (fields : List (String × String))
deriving DecidableEq, Repr

/-- The sequence of gorm calls made by `GormReadWriter.Update` on a non-nil
record with a non-nil transaction: an empty mask saves the whole record
(and, the save block not returning, an empty `Updates` map still follows);
a non-empty mask issues a single `Updates` with the masked fields. -/
def gormUpdate (rec : List GoField) (fieldMaskPaths : List String) : List GormAction :=
  (if fieldMaskPaths.isEmpty then [GormAction.save rec] else [])
    ++ [GormAction.updates (updateFields rec fieldMaskPaths)]

/-- Proof helper: inserts a list of values one at a time under the same
key, so the last value wins. -/
def insertAll (m : List (String × String)) (k : String) (vs : List String) :
    List (String × String) :=
  vs.foldl (fun m v => mapSet m k v) m

/-- A sample record with an exported embedded struct field and a scalar
field. -/
def recW : List GoField :=
  [{ name := "Model",
     kind := GoFieldKind.structKind [{ name := "UpdateTime", value := "t1" },
                                     { name := "Id", value := "i1" }] },
   { name := "PublicId", kind := GoFieldKind.scalar "p1" }]

end BoundaryDb

namespace BoundaryOidc

/-- Helper: `mkVO` is injective in the raw value for a fixed kind and
parent. -/
theorem mkVO_inj {k p a b : String} (h : mkVO k p a = mkVO k p b) : a = b := by
  unfold mkVO at h
  split_ifs at h <;> injection h

/-- Helper: membership in a mapped set difference of lists. -/
theorem mem_diff_map {l₁ l₂ : List String} {f : String → ValueObject} {vo : ValueObject} :
    vo ∈ (l₁.filter (fun v => !l₂.contains v)).map f ↔
      ∃ x, x ∈ l₁ ∧ x ∉ l₂ ∧ vo = f x := by
  constructor
  · intro h
    obtain ⟨x, hx, rfl⟩ := List.mem_map.mp h
    obtain ⟨hx1, hx2⟩ := List.mem_filter.mp hx
    refine ⟨x, hx1, fun hm => ?_, rfl⟩
    have hc : l₂.contains x = true := List.elem_iff.mpr hm
    rw [hc] at hx2
    cases hx2
  · rintro ⟨x, hx1, hx2, rfl⟩
    refine List.mem_map.mpr ⟨x, List.mem_filter.mpr ⟨hx1, ?_⟩, rfl⟩
    cases hc : l₂.contains x
    · rfl
    · exact absurd (List.elem_iff.mp hc) hx2

/-- Claim C1: for a non-empty parent id, a recognized value-object kind,
duplicate-free old and new values, and a kind present in the field mask or
null-fields list, `valueObjectChanges` succeeds with `toAdd` holding the
typed value objects for exactly the new-minus-old elements in
first-occurrence order of `newValues`, `toDelete` holding exactly the
old-minus-new elements, and the two disjoint. -/
theorem valueObjectChanges_diff_spec (parentId voKind : String)
    (newValues oldValues dbMask nullFields : List String)
    (hp : parentId ≠ "")
    (hk : recognizedVoKinds.contains voKind = true)
    (hn : hasDup newValues = false)
    (ho : hasDup oldValues = false)
    (hm : dbMask.contains voKind = true ∨ nullFields.contains voKind = true) :
    ∃ toAdd toDelete,
      valueObjectChanges parentId voKind newValues oldValues dbMask nullFields =
        Except.ok (toAdd, toDelete) ∧
      (∀ vo, vo ∈ toAdd ↔ ∃ x, x ∈ newValues ∧ x ∉ oldValues ∧ vo = mkVO voKind parentId x) ∧
      toAdd.Sublist (newValues.map (mkVO voKind parentId)) ∧
      (∀ vo, vo ∈ toDelete ↔ ∃ x, x ∈ oldValues ∧ x ∉ newValues ∧ vo = mkVO voKind parentId x) ∧
      (∀ vo, vo ∈ toAdd → vo ∉ toDelete) := by
  refine ⟨(newValues.filter (fun v => !oldValues.contains v)).map (mkVO voKind parentId),
          (oldValues.filter (fun v => !newValues.contains v)).map (mkVO voKind parentId),
          ?_, ?_, ?_, ?_, ?_⟩
  · unfold valueObjectChanges
    rw [if_neg hp, if_neg (by rw [hk]; decide), if_neg (by rw [hn]; decide),
      if_neg (by rw [ho]; decide),
      if_pos (by rcases hm with h | h
                 · rw [h, Bool.true_or]
                 · rw [h, Bool.or_true])]
  · intro vo; exact mem_diff_map
  · exact List.Sublist.map _ (List.filter_sublist _)
  · intro vo; exact mem_diff_map
  · intro vo ha hd
    obtain ⟨x, hx1, hx2, rfl⟩ := mem_diff_map.mp ha
    obtain ⟨y, hy1, hy2, hxy⟩ := mem_diff_map.mp hd
    exact hx2 (mkVO_inj hxy ▸ hy1)

/-- Witness for C1 at the concrete inputs of the signing-algorithm test
case. -/
theorem valueObjectChanges_diff_spec_witness :
    ∃ toAdd toDelete,
      valueObjectChanges "am-public-id" "SigningAlgs" ["ES256", "ES384"]
          ["RS256", "RS384", "RS512"] ["SigningAlgs"] [] =
        Except.ok (toAdd, toDelete) ∧
      (∀ vo, vo ∈ toAdd ↔
        ∃ x, x ∈ ["ES256", "ES384"] ∧ x ∉ ["RS256", "RS384", "RS512"] ∧
          vo = mkVO "SigningAlgs" "am-public-id" x) ∧
      toAdd.Sublist (["ES256", "ES384"].map (mkVO "SigningAlgs" "am-public-id")) ∧
      (∀ vo, vo ∈ toDelete ↔
        ∃ x, x ∈ ["RS256", "RS384", "RS512"] ∧ x ∉ ["ES256", "ES384"] ∧
          vo = mkVO "SigningAlgs" "am-public-id" x) ∧
      (∀ vo, vo ∈ toAdd → vo ∉ toDelete) :=
  valueObjectChanges_diff_spec "am-public-id" "SigningAlgs" ["ES256", "ES384"]
    ["RS256", "RS384", "RS512"] ["SigningAlgs"] [] (by decide) (by decide) (by decide)
    (by decide) (Or.inl (by decide))

/-- Claim C5: `valueObjectChanges` fails with `InvalidParameter` whenever
the parent id is empty, the kind is unrecognized, or the old or new values
contain a repeated entry. -/
theorem valueObjectChanges_invalid_inputs (parentId voKind : String)
    (newValues oldValues dbMask nullFields : List String)
    (h : parentId = "" ∨ recognizedVoKinds.contains voKind = false ∨
         hasDup newValues = true ∨ hasDup oldValues = true) :
    ∃ e, valueObjectChanges parentId voKind newValues oldValues dbMask nullFields =
           Except.error e ∧ e.code = ErrCode.InvalidParameter := by
  unfold valueObjectChanges
  split_ifs with h1 h2 h3 h4 h5
  · exact ⟨_, rfl, rfl⟩
  · exact ⟨_, rfl, rfl⟩
  · exact ⟨_, rfl, rfl⟩
  · exact ⟨_, rfl, rfl⟩
  · rcases h with h | h | h | h
    · exact absurd h h1
    · exact absurd (by rw [h]; decide) h2
    · exact absurd h h3
    · exact absurd h h4
  · rcases h with h | h | h | h
    · exact absurd h h1
    · exact absurd (by rw [h]; decide) h2
    · exact absurd h h3
    · exact absurd h h4

/-- Witness for C5 at a duplicate-carrying new-values input. -/
theorem valueObjectChanges_invalid_inputs_witness :
    ∃ e, valueObjectChanges "am-public-id" "SigningAlgs" ["ES256", "ES256"]
           ["RS256", "RS384", "RS512"] ["SigningAlgs"] [] =
         Except.error e ∧ e.code = ErrCode.InvalidParameter :=
  valueObjectChanges_invalid_inputs "am-public-id" "SigningAlgs" ["ES256", "ES256"]
    ["RS256", "RS384", "RS512"] ["SigningAlgs"] []
    (Or.inr (Or.inr (Or.inl (by decide))))

set_option maxHeartbeats 1000000 in
/-- Helper: one mask step never touches the public id, the operational
state, the version, or the validation-bypass flag. -/
theorem applyStep_const (amNew cp : AuthMethod) (f : String) :
    (applyStep amNew cp f).PublicId = cp.PublicId ∧
    (applyStep amNew cp f).OperationalState = cp.OperationalState ∧
    (applyStep amNew cp f).Version = cp.Version ∧
    (applyStep amNew cp f).DisableDiscoveredConfigValidation =
      cp.DisableDiscoveredConfigValidation := by
  unfold applyStep
  split_ifs <;> exact ⟨rfl, rfl, rfl, rfl⟩

set_option maxHeartbeats 1000000 in
/-- Helper: a mask step for a different attribute leaves Name unchanged. -/
theorem applyStep_Name (amNew cp : AuthMethod) {f : String} (h : f ≠ "Name") :
    (applyStep amNew cp f).Name = cp.Name := by
  unfold applyStep
  split_ifs <;> first | rfl | exact absurd (by assumption) h

/-- Helper: a mask step for a different attribute leaves Description
unchanged. -/
theorem applyStep_Description (amNew cp : AuthMethod) {f : String} (h : f ≠ "Description") :
    (applyStep amNew cp f).Description = cp.Description := by
  unfold applyStep
  split_ifs <;> first | rfl | exact absurd (by assumption) h

/-- Helper: a mask step for a different attribute leaves DiscoveryUrl
unchanged. -/
theorem applyStep_DiscoveryUrl (amNew cp : AuthMethod) {f : String} (h : f ≠ "DiscoveryUrl") :
    (applyStep amNew cp f).DiscoveryUrl = cp.DiscoveryUrl := by
  unfold applyStep
  split_ifs <;> first | rfl | exact absurd (by assumption) h

/-- Helper: a mask step for a different attribute leaves ClientId
unchanged. -/
theorem applyStep_ClientId (amNew cp : AuthMethod) {f : String} (h : f ≠ "ClientId") :
    (applyStep amNew cp f).ClientId = cp.ClientId := by
  unfold applyStep
  split_ifs <;> first | rfl | exact absurd (by assumption) h

/-- Helper: a mask step for a different attribute leaves ClientSecret
unchanged. -/
theorem applyStep_ClientSecret (amNew cp : AuthMethod) {f : String} (h : f ≠ "ClientSecret") :
    (applyStep amNew cp f).ClientSecret = cp.ClientSecret := by
  unfold applyStep
  split_ifs <;> first | rfl | exact absurd (by assumption) h

/-- Helper: a mask step for a different attribute leaves MaxAge
unchanged. -/
theorem applyStep_MaxAge (amNew cp : AuthMethod) {f : String} (h : f ≠ "MaxAge") :
    (applyStep amNew cp f).MaxAge = cp.MaxAge := by
  unfold applyStep
  split_ifs <;> first | rfl | exact absurd (by assumption) h

/-- Helper: a mask step for a different attribute leaves SigningAlgs
unchanged. -/
theorem applyStep_SigningAlgs (amNew cp : AuthMethod) {f : String} (h : f ≠ "SigningAlgs") :
    (applyStep amNew cp f).SigningAlgs = cp.SigningAlgs := by
  unfold applyStep
  split_ifs <;> first | rfl | exact absurd (by assumption) h

/-- Helper: a mask step for a different attribute leaves CallbackUrls
unchanged. -/
theorem applyStep_CallbackUrls (amNew cp : AuthMethod) {f : String} (h : f ≠ "CallbackUrls") :
    (applyStep amNew cp f).CallbackUrls = cp.CallbackUrls := by
  unfold applyStep
  split_ifs <;> first | rfl | exact absurd (by assumption) h

/-- Helper: a mask step for a different attribute leaves AudClaims
unchanged. -/
theorem applyStep_AudClaims (amNew cp : AuthMethod) {f : String} (h : f ≠ "AudClaims") :
    (applyStep amNew cp f).AudClaims = cp.AudClaims := by
  unfold applyStep
  split_ifs <;> first | rfl | exact absurd (by assumption) h

/-- Helper: a mask step for a different attribute leaves Certificates
unchanged. -/
theorem applyStep_Certificates (amNew cp : AuthMethod) {f : String} (h : f ≠ "Certificates") :
    (applyStep amNew cp f).Certificates = cp.Certificates := by
  unfold applyStep
  split_ifs <;> first | rfl | exact absurd (by assumption) h

/-- Helper: `applyUpdate` never touches the public id, the operational
state, the version, or the validation-bypass flag. -/
theorem applyUpdate_const (amNew orig : AuthMethod) (mask : List String) :
    (applyUpdate amNew orig mask).PublicId = orig.PublicId ∧
    (applyUpdate amNew orig mask).OperationalState = orig.OperationalState ∧
    (applyUpdate amNew orig mask).Version = orig.Version ∧
    (applyUpdate amNew orig mask).DisableDiscoveredConfigValidation =
      orig.DisableDiscoveredConfigValidation := by
  induction mask generalizing orig with
  | nil => exact ⟨rfl, rfl, rfl, rfl⟩
  | cons f rest ih =>
    have hs := applyStep_const amNew orig f
    have hi := ih (applyStep amNew orig f)
    exact ⟨hi.1.trans hs.1, hi.2.1.trans hs.2.1, hi.2.2.1.trans hs.2.2.1,
      hi.2.2.2.trans hs.2.2.2⟩

/-- Helper: splits non-membership in a cons. -/
theorem not_mem_cons_parts {a b : String} {l : List String} (h : a ∉ b :: l) :
    b ≠ a ∧ a ∉ l :=
  ⟨fun e => h (List.mem_cons.mpr (Or.inl e.symm)), fun e => h (List.mem_cons.mpr (Or.inr e))⟩

/-- Claim C6: for every field mask, `applyUpdate` leaves every attribute
not named in the mask at its original value, and the operational-state and
version fields (as well as the public id and the validation-bypass flag)
are never copied from the new record, whatever values it carries. -/
theorem applyUpdate_frame_spec (amNew orig : AuthMethod) (mask : List String) :
    (applyUpdate amNew orig mask).OperationalState = orig.OperationalState ∧
    (applyUpdate amNew orig mask).Version = orig.Version ∧
    (applyUpdate amNew orig mask).PublicId = orig.PublicId ∧
    (applyUpdate amNew orig mask).DisableDiscoveredConfigValidation =
      orig.DisableDiscoveredConfigValidation ∧
    ("Name" ∉ mask → (applyUpdate amNew orig mask).Name = orig.Name) ∧
    ("Description" ∉ mask → (applyUpdate amNew orig mask).Description = orig.Description) ∧
    ("DiscoveryUrl" ∉ mask → (applyUpdate amNew orig mask).DiscoveryUrl = orig.DiscoveryUrl) ∧
    ("ClientId" ∉ mask → (applyUpdate amNew orig mask).ClientId = orig.ClientId) ∧
    ("ClientSecret" ∉ mask → (applyUpdate amNew orig mask).ClientSecret = orig.ClientSecret) ∧
    ("MaxAge" ∉ mask → (applyUpdate amNew orig mask).MaxAge = orig.MaxAge) ∧
    ("SigningAlgs" ∉ mask → (applyUpdate amNew orig mask).SigningAlgs = orig.SigningAlgs) ∧
    ("CallbackUrls" ∉ mask → (applyUpdate amNew orig mask).CallbackUrls = orig.CallbackUrls) ∧
    ("AudClaims" ∉ mask → (applyUpdate amNew orig mask).AudClaims = orig.AudClaims) ∧
    ("Certificates" ∉ mask →
      (applyUpdate amNew orig mask).Certificates = orig.Certificates) := by
  induction mask generalizing orig with
  | nil =>
    exact ⟨rfl, rfl, rfl, rfl, fun _ => rfl, fun _ => rfl, fun _ => rfl, fun _ => rfl,
      fun _ => rfl, fun _ => rfl, fun _ => rfl, fun _ => rfl, fun _ => rfl, fun _ => rfl⟩
  | cons f rest ih =>
    have hc := applyUpdate_const amNew (applyStep amNew orig f) rest
    have hsc := applyStep_const amNew orig f
    have hi := ih (applyStep amNew orig f)
    refine ⟨hc.2.1.trans hsc.2.1, hc.2.2.1.trans hsc.2.2.1, hc.1.trans hsc.1,
      hc.2.2.2.trans hsc.2.2.2, ?_, ?_, ?_, ?_, ?_, ?_, ?_, ?_, ?_, ?_⟩
    · intro h
      obtain ⟨hf, hr⟩ := not_mem_cons_parts h
      exact (hi.2.2.2.2.1 hr).trans (applyStep_Name amNew orig hf)
    · intro h
      obtain ⟨hf, hr⟩ := not_mem_cons_parts h
      exact (hi.2.2.2.2.2.1 hr).trans (applyStep_Description amNew orig hf)
    · intro h
      obtain ⟨hf, hr⟩ := not_mem_cons_parts h
      exact (hi.2.2.2.2.2.2.1 hr).trans (applyStep_DiscoveryUrl amNew orig hf)
    · intro h
      obtain ⟨hf, hr⟩ := not_mem_cons_parts h
      exact (hi.2.2.2.2.2.2.2.1 hr).trans (applyStep_ClientId amNew orig hf)
    · intro h
      obtain ⟨hf, hr⟩ := not_mem_cons_parts h
      exact (hi.2.2.2.2.2.2.2.2.1 hr).trans (applyStep_ClientSecret amNew orig hf)
    · intro h
      obtain ⟨hf, hr⟩ := not_mem_cons_parts h
      exact (hi.2.2.2.2.2.2.2.2.2.1 hr).trans (applyStep_MaxAge amNew orig hf)
    · intro h
      obtain ⟨hf, hr⟩ := not_mem_cons_parts h
      exact (hi.2.2.2.2.2.2.2.2.2.2.1 hr).trans (applyStep_SigningAlgs amNew orig hf)
    · intro h
      obtain ⟨hf, hr⟩ := not_mem_cons_parts h
      exact (hi.2.2.2.2.2.2.2.2.2.2.2.1 hr).trans (applyStep_CallbackUrls amNew orig hf)
    · intro h
      obtain ⟨hf, hr⟩ := not_mem_cons_parts h
      exact (hi.2.2.2.2.2.2.2.2.2.2.2.2.1 hr).trans (applyStep_AudClaims amNew orig hf)
    · intro h
      obtain ⟨hf, hr⟩ := not_mem_cons_parts h
      exact (hi.2.2.2.2.2.2.2.2.2.2.2.2.2 hr).trans (applyStep_Certificates amNew orig hf)

/-- Witness for C6: merging two concrete records under the mask
containing only Name keeps the state, version, and the unmasked
Description. -/
theorem applyUpdate_frame_spec_witness :
    (applyUpdate amRenamed amActive ["Name"]).OperationalState =
      amActive.OperationalState ∧
    (applyUpdate amRenamed amActive ["Name"]).Version = amActive.Version ∧
    (applyUpdate amRenamed amActive ["Name"]).Description = amActive.Description := by
  have h := applyUpdate_frame_spec amRenamed amActive ["Name"]
  exact ⟨h.1, h.2.1, h.2.2.2.2.2.1 (by decide)⟩

/-- Helper: the SigningAlgs mask step copies the new list. -/
theorem applyStep_SigningAlgs_set (amNew cp : AuthMethod) :
    (applyStep amNew cp "SigningAlgs").SigningAlgs = amNew.SigningAlgs := by
  simp [applyStep]

/-- Helper: the Certificates mask step copies the new list. -/
theorem applyStep_Certificates_set (amNew cp : AuthMethod) :
    (applyStep amNew cp "Certificates").Certificates = amNew.Certificates := by
  simp [applyStep]

/-- Helper: the AudClaims mask step copies the new list. -/
theorem applyStep_AudClaims_set (amNew cp : AuthMethod) :
    (applyStep amNew cp "AudClaims").AudClaims = amNew.AudClaims := by
  simp [applyStep]

/-- Helper: the CallbackUrls mask step copies the new list. -/
theorem applyStep_CallbackUrls_set (amNew cp : AuthMethod) :
    (applyStep amNew cp "CallbackUrls").CallbackUrls = amNew.CallbackUrls := by
  simp [applyStep]

/-- Helper: a masked SigningAlgs attribute ends at the new record's
list. -/
theorem applyUpdate_SigningAlgs_mem (amNew : AuthMethod) (orig : AuthMethod)
    (mask : List String) (h : "SigningAlgs" ∈ mask) :
    (applyUpdate amNew orig mask).SigningAlgs = amNew.SigningAlgs := by
  induction mask generalizing orig with
  | nil => cases h
  | cons f rest ih =>
    by_cases hr : "SigningAlgs" ∈ rest
    · exact ih (applyStep amNew orig f) hr
    · have hf : f = "SigningAlgs" := by
        rcases List.mem_cons.mp h with h1 | h1
        · exact h1.symm
        · exact absurd h1 hr
      subst hf
      exact ((applyUpdate_frame_spec amNew (applyStep amNew orig "SigningAlgs")
        rest).2.2.2.2.2.2.2.2.2.2.1 hr).trans (applyStep_SigningAlgs_set amNew orig)

/-- Helper: a masked Certificates attribute ends at the new record's
list. -/
theorem applyUpdate_Certificates_mem (amNew : AuthMethod) (orig : AuthMethod)
    (mask : List String) (h : "Certificates" ∈ mask) :
    (applyUpdate amNew orig mask).Certificates = amNew.Certificates := by
  induction mask generalizing orig with
  | nil => cases h
  | cons f rest ih =>
    by_cases hr : "Certificates" ∈ rest
    · exact ih (applyStep amNew orig f) hr
    · have hf : f = "Certificates" := by
        rcases List.mem_cons.mp h with h1 | h1
        · exact h1.symm
        · exact absurd h1 hr
      subst hf
      exact ((applyUpdate_frame_spec amNew (applyStep amNew orig "Certificates")
        rest).2.2.2.2.2.2.2.2.2.2.2.2.2 hr).trans (applyStep_Certificates_set amNew orig)

/-- Helper: a masked AudClaims attribute ends at the new record's list. -/
theorem applyUpdate_AudClaims_mem (amNew : AuthMethod) (orig : AuthMethod)
    (mask : List String) (h : "AudClaims" ∈ mask) :
    (applyUpdate amNew orig mask).AudClaims = amNew.AudClaims := by
  induction mask generalizing orig with
  | nil => cases h
  | cons f rest ih =>
    by_cases hr : "AudClaims" ∈ rest
    · exact ih (applyStep amNew orig f) hr
    · have hf : f = "AudClaims" := by
        rcases List.mem_cons.mp h with h1 | h1
        · exact h1.symm
        · exact absurd h1 hr
      subst hf
      exact ((applyUpdate_frame_spec amNew (applyStep amNew orig "AudClaims")
        rest).2.2.2.2.2.2.2.2.2.2.2.2.1 hr).trans (applyStep_AudClaims_set amNew orig)

/-- Helper: a masked CallbackUrls attribute ends at the new record's
list. -/
theorem applyUpdate_CallbackUrls_mem (amNew : AuthMethod) (orig : AuthMethod)
    (mask : List String) (h : "CallbackUrls" ∈ mask) :
    (applyUpdate amNew orig mask).CallbackUrls = amNew.CallbackUrls := by
  induction mask generalizing orig with
  | nil => cases h
  | cons f rest ih =>
    by_cases hr : "CallbackUrls" ∈ rest
    · exact ih (applyStep amNew orig f) hr
    · have hf : f = "CallbackUrls" := by
        rcases List.mem_cons.mp h with h1 | h1
        · exact h1.symm
        · exact absurd h1 hr
      subst hf
      exact ((applyUpdate_frame_spec amNew (applyStep amNew orig "CallbackUrls")
        rest).2.2.2.2.2.2.2.2.2.2.2.1 hr).trans (applyStep_CallbackUrls_set amNew orig)

/-- Helper: the differ on two equal duplicate-free lists that it accepts
reports nothing to add or delete. -/
theorem valueObjectChanges_eq_lists {p k : String} {v m nf : List String}
    {a d : List ValueObject}
    (h : valueObjectChanges p k v v m nf = Except.ok (a, d)) : a = [] ∧ d = [] := by
  unfold valueObjectChanges at h
  split_ifs at h
  · cases h
    have hfil : v.filter (fun x => !v.contains x) = [] := by
      rw [List.filter_eq_nil_iff]
      intro x hx
      have hc : v.contains x = true := List.elem_iff.mpr hx
      rw [hc]
      decide
    have hmap : (v.filter (fun x => !v.contains x)).map (mkVO k p) = [] := by
      rw [hfil]
      rfl
    exact ⟨hmap, hmap⟩
  · cases h
    exact ⟨rfl, rfl⟩

/-- Helper: when the kind sits in neither the mask nor the (empty)
null-fields list, an accepted differ call reports empty changes. -/
theorem valueObjectChanges_not_in_mask {p k : String} {nv ov m : List String}
    {a d : List ValueObject}
    (hk : m.contains k = false)
    (h : valueObjectChanges p k nv ov m [] = Except.ok (a, d)) : a = [] ∧ d = [] := by
  unfold valueObjectChanges at h
  split_ifs at h with h1 h2 h3 h4 h5
  · rw [hk] at h5
    cases h5
  · cases h
    exact ⟨rfl, rfl⟩

/-- Helper: when the merge leaves the record unchanged, an accepted
`voChangesAll` reports empty add and delete sets. -/
theorem voChangesAll_noop {pid : String} {am orig : AuthMethod} {mask : List String}
    {adds dels : List ValueObject}
    (hm : applyUpdate am orig mask = orig)
    (h : voChangesAll pid am orig mask = Except.ok (adds, dels)) :
    adds = [] ∧ dels = [] := by
  unfold voChangesAll at h
  cases h1 : valueObjectChanges pid "SigningAlgs" am.SigningAlgs orig.SigningAlgs mask [] with
  | error e => rw [h1] at h; simp at h
  | ok p1 =>
  obtain ⟨a1, d1⟩ := p1
  cases h2 : valueObjectChanges pid "Certificates" am.Certificates orig.Certificates mask [] with
  | error e => rw [h1, h2] at h; simp at h
  | ok p2 =>
  obtain ⟨a2, d2⟩ := p2
  cases h3 : valueObjectChanges pid "AudClaims" am.AudClaims orig.AudClaims mask [] with
  | error e => rw [h1, h2, h3] at h; simp at h
  | ok p3 =>
  obtain ⟨a3, d3⟩ := p3
  cases h4 : valueObjectChanges pid "CallbackUrls" am.CallbackUrls orig.CallbackUrls mask [] with
  | error e => rw [h1, h2, h3, h4] at h; simp at h
  | ok p4 =>
  obtain ⟨a4, d4⟩ := p4
  rw [h1, h2, h3, h4] at h
  injection h with h'
  injection h' with hadds hdels
  have e1 : a1 = [] ∧ d1 = [] := by
    by_cases hk : mask.contains "SigningAlgs" = true
    · have hmem : "SigningAlgs" ∈ mask := List.elem_iff.mp hk
      have heq : am.SigningAlgs = orig.SigningAlgs :=
        (applyUpdate_SigningAlgs_mem am orig mask hmem).symm.trans
          (congrArg AuthMethod.SigningAlgs hm)
      rw [heq] at h1
      exact valueObjectChanges_eq_lists h1
    · have hkf : mask.contains "SigningAlgs" = false := by
        cases hcc : mask.contains "SigningAlgs"
        · rfl
        · exact absurd hcc hk
      exact valueObjectChanges_not_in_mask hkf h1
  have e2 : a2 = [] ∧ d2 = [] := by
    by_cases hk : mask.contains "Certificates" = true
    · have hmem : "Certificates" ∈ mask := List.elem_iff.mp hk
      have heq : am.Certificates = orig.Certificates :=
        (applyUpdate_Certificates_mem am orig mask hmem).symm.trans
          (congrArg AuthMethod.Certificates hm)
      rw [heq] at h2
      exact valueObjectChanges_eq_lists h2
    · have hkf : mask.contains "Certificates" = false := by
        cases hcc : mask.contains "Certificates"
        · rfl
        · exact absurd hcc hk
      exact valueObjectChanges_not_in_mask hkf h2
  have e3 : a3 = [] ∧ d3 = [] := by
    by_cases hk : mask.contains "AudClaims" = true
    · have hmem : "AudClaims" ∈ mask := List.elem_iff.mp hk
      have heq : am.AudClaims = orig.AudClaims :=
        (applyUpdate_AudClaims_mem am orig mask hmem).symm.trans
          (congrArg AuthMethod.AudClaims hm)
      rw [heq] at h3
      exact valueObjectChanges_eq_lists h3
    · have hkf : mask.contains "AudClaims" = false := by
        cases hcc : mask.contains "AudClaims"
        · rfl
        · exact absurd hcc hk
      exact valueObjectChanges_not_in_mask hkf h3
  have e4 : a4 = [] ∧ d4 = [] := by
    by_cases hk : mask.contains "CallbackUrls" = true
    · have hmem : "CallbackUrls" ∈ mask := List.elem_iff.mp hk
      have heq : am.CallbackUrls = orig.CallbackUrls :=
        (applyUpdate_CallbackUrls_mem am orig mask hmem).symm.trans
          (congrArg AuthMethod.CallbackUrls hm)
      rw [heq] at h4
      exact valueObjectChanges_eq_lists h4
    · have hkf : mask.contains "CallbackUrls" = false := by
        cases hcc : mask.contains "CallbackUrls"
        · rfl
        · exact absurd hcc hk
      exact valueObjectChanges_not_in_mask hkf h4
  rw [e1.1, e2.1, e3.1, e4.1] at hadds
  rw [e1.2, e2.2, e3.2, e4.2] at hdels
  simp at hadds hdels
  exact ⟨hadds, hdels⟩

/-- Helper: without force, the merge is just the mask application. -/
theorem mergedOf_false (amNew orig : AuthMethod) (mask : List String) :
    mergedOf amNew orig mask false = applyUpdate amNew orig mask := rfl

/-- Helper: with force, the merge raises the validation-bypass flag. -/
theorem mergedOf_flag_true (amNew orig : AuthMethod) (mask : List String) :
    (mergedOf amNew orig mask true).DisableDiscoveredConfigValidation = true := rfl

/-- Helper: the merge keeps the original public id. -/
theorem mergedOf_PublicId (amNew orig : AuthMethod) (mask : List String) (force : Bool) :
    (mergedOf amNew orig mask force).PublicId = orig.PublicId := by
  cases force
  · exact (applyUpdate_const amNew orig mask).1
  · exact (applyUpdate_const amNew orig mask).1

/-- Helper: replacing the rows of the updated record's public id makes
lookups return the updated record. -/
theorem find?_replace {l : List AuthMethod} {pid : String} {orig final : AuthMethod}
    (hl : l.find? (fun m => m.PublicId == pid) = some orig)
    (hf : final.PublicId = pid) :
    (l.map (fun m => if m.PublicId == final.PublicId then final else m)).find?
        (fun m => m.PublicId == pid) = some final := by
  induction l with
  | nil => simp [List.find?] at hl
  | cons x xs ih =>
    by_cases hx : (x.PublicId == pid) = true
    · have hxf : (x.PublicId == final.PublicId) = true := by rw [hf]; exact hx
      simp only [List.map_cons]
      rw [if_pos hxf]
      rw [List.find?_cons_of_pos]
      rw [hf]
      exact beq_self_eq_true pid
    · have hxf : (x.PublicId == final.PublicId) = false := by
        rw [hf]
        cases hb : x.PublicId == pid
        · rfl
        · exact absurd hb hx
      have hl' : xs.find? (fun m => m.PublicId == pid) = some orig := by
        rw [List.find?_cons_of_neg] at hl
        · exact hl
        · exact hx
      simp only [List.map_cons]
      rw [if_neg (by rw [hxf]; exact Bool.false_ne_true)]
      rw [List.find?_cons_of_neg]
      · exact ih hl'
      · exact hx

/-- Helper: after `storeUpdate`, looking the public id up returns the
persisted record. -/
theorem lookup_storeUpdate {s : Store} {pid : String} {orig final : AuthMethod}
    (hl : lookupAuthMethod s pid = some orig) (hf : final.PublicId = pid) :
    lookupAuthMethod (storeUpdate s final) pid = some final :=
  find?_replace hl hf

/-- Claim C2 counterexample: on a store holding the record at version 5, a
no-delta update carrying expected version 3 succeeds with no error and
leaves the store, hence the stored version, unchanged, although the
expected version matches neither the stored version nor increments it:
the claim that a version mismatch always fails with VersionMismatch, and
that success always leaves version = expectedVersion + 1, both fail
here. -/
theorem updateAuthMethod_version_claim_counterexample :
    lookupAuthMethod storeV5 "ampub1" = some amV5 ∧
    amV5.Version = 5 ∧
    (5 : Nat) ≠ 3 ∧ (5 : Nat) ≠ 3 + 1 ∧
    (updateAuthMethod envAllOk storeV5 (some amSame) 3 ["Name"] ⟨false, false⟩).1.err =
      none ∧
    (updateAuthMethod envAllOk storeV5 (some amSame) 3 ["Name"] ⟨false, false⟩).2 =
      storeV5 := by
  decide

/-- Claim C2 (amended): a successful `updateAuthMethod` that affects a row
leaves the stored version at expectedVersion + 1; any failing update
leaves the store unchanged; and an otherwise-valid, non-dry-run update
that is not a no-op and whose expected version differs from the stored
version fails with VersionMismatch, leaving the store unchanged. -/
theorem updateAuthMethod_version_spec (env : DiscoveryEnv) (s : Store) (am : AuthMethod)
    (ev : Nat) (mask : List String) (opts : UpdateOpts) :
    (∀ r st, updateAuthMethod env s (some am) ev mask opts = (r, st) →
       r.err = none → r.rowsAffected = 1 →
       ∃ final, r.am = some final ∧ final.Version = ev + 1 ∧
         lookupAuthMethod st am.PublicId = some final) ∧
    (∀ r st e, updateAuthMethod env s (some am) ev mask opts = (r, st) →
       r.err = some e → st = s) ∧
    (∀ orig adds dels,
       am.PublicId ≠ "" → mask ≠ [] → validateFieldMask mask = Except.ok () →
       lookupAuthMethod s am.PublicId = some orig →
       voChangesAll am.PublicId am orig mask = Except.ok (adds, dels) →
       completenessGate env (mergedOf am orig mask opts.withForce) opts.withForce = none →
       opts.withDryRun = false →
       ¬(mergedOf am orig mask opts.withForce = orig ∧ adds = [] ∧ dels = []) →
       orig.Version ≠ ev →
       updateAuthMethod env s (some am) ev mask opts =
         ({ am := none, rowsAffected := 0,
            err := some { code := ErrCode.VersionMismatch,
                          msg := "update version does not match" } }, s)) := by
  refine ⟨?_, ?_, ?_⟩
  · intro r st hU he hrows
    simp only [updateAuthMethod] at hU
    repeat' split at hU
    all_goals (injection hU with hu1 hu2)
    all_goals subst hu1
    all_goals subst hu2
    all_goals first
      | (exfalso; simp at he; done)
      | (exfalso; simp at hrows; done)
      | (refine ⟨_, rfl, rfl, ?_⟩
         have key : ∀ o : AuthMethod, lookupAuthMethod s am.PublicId = some o →
             lookupAuthMethod (storeUpdate s
               { mergedOf am o mask opts.withForce with Version := ev + 1 }) am.PublicId =
             some { mergedOf am o mask opts.withForce with Version := ev + 1 } := by
           intro o ho
           have ho2 : s.methods.find? (fun m => m.PublicId == am.PublicId) = some o := ho
           have hbeq := List.find?_some ho2
           exact lookup_storeUpdate ho
             ((mergedOf_PublicId am o mask opts.withForce).trans (eq_of_beq hbeq))
         exact key _ (by assumption))
  · intro r st e hU he
    simp only [updateAuthMethod] at hU
    repeat' split at hU
    all_goals (injection hU with hu1 hu2)
    all_goals subst hu1
    all_goals subst hu2
    all_goals first | rfl | (exfalso; simp at he; done)
  · intro orig adds dels h1 h2 h3 h4 h5 h6 h7 h8 h9
    simp only [updateAuthMethod, if_neg h1, if_neg h2, h3, h4, h5, h6, h7,
      Bool.false_eq_true, if_false, if_neg h8, if_neg h9]

/-- Witness for the amended C2: a concrete renaming update at the correct
expected version persists version 2, and the same update at expected
version 7 fails with VersionMismatch leaving the store unchanged. -/
theorem updateAuthMethod_version_spec_witness :
    (∃ final,
       (updateAuthMethod envAllOk storeOne (some amRenamed) 1 ["Name"] ⟨false, false⟩).1.am =
         some final ∧
       final.Version = 1 + 1 ∧
       lookupAuthMethod
         (updateAuthMethod envAllOk storeOne (some amRenamed) 1 ["Name"] ⟨false, false⟩).2
         amRenamed.PublicId = some final) ∧
    updateAuthMethod envAllOk storeOne (some amRenamed) 7 ["Name"] ⟨false, false⟩ =
      ({ am := none, rowsAffected := 0,
         err := some { code := ErrCode.VersionMismatch,
                       msg := "update version does not match" } }, storeOne) := by
  constructor
  · exact (updateAuthMethod_version_spec envAllOk storeOne amRenamed 1 ["Name"]
      ⟨false, false⟩).1 _ _ rfl (by decide) (by decide)
  · exact (updateAuthMethod_version_spec envAllOk storeOne amRenamed 7 ["Name"]
      ⟨false, false⟩).2.2 amOrig [] [] (by decide) (by decide) (by decide) (by decide)
      (by decide) (by decide) (by decide) (by decide) (by decide)

/-- Claim C3: a dry-run update never mutates the store (rows, version,
value objects, audit log), reports zero rows affected, and, when
validation passes, returns the synthesized post-update record together
with the completeness-gate error when that gate would have failed. -/
theorem updateAuthMethod_dry_run_frame (env : DiscoveryEnv) (s : Store)
    (amOpt : Option AuthMethod) (ev : Nat) (mask : List String) (opts : UpdateOpts)
    (hdry : opts.withDryRun = true) :
    (∀ r st, updateAuthMethod env s amOpt ev mask opts = (r, st) →
       st = s ∧ r.rowsAffected = 0) ∧
    (∀ am orig adds dels, amOpt = some am →
       am.PublicId ≠ "" → mask ≠ [] → validateFieldMask mask = Except.ok () →
       lookupAuthMethod s am.PublicId = some orig →
       voChangesAll am.PublicId am orig mask = Except.ok (adds, dels) →
       updateAuthMethod env s amOpt ev mask opts =
         ({ am := some (mergedOf am orig mask opts.withForce), rowsAffected := 0,
            err := completenessGate env (mergedOf am orig mask opts.withForce)
                     opts.withForce }, s)) := by
  constructor
  · intro r st hU
    cases amOpt with
    | none =>
      simp only [updateAuthMethod] at hU
      injection hU with hu1 hu2
      subst hu1
      subst hu2
      exact ⟨rfl, rfl⟩
    | some am =>
      simp only [updateAuthMethod] at hU
      repeat' split at hU
      all_goals (injection hU with hu1 hu2)
      all_goals subst hu1
      all_goals subst hu2
      all_goals first
        | exact ⟨rfl, rfl⟩
        | exact absurd hdry (by assumption)
  · intro am orig adds dels hsome h1 h2 h3 h4 h5
    subst hsome
    simp only [updateAuthMethod, if_neg h1, if_neg h2, h3, h4, h5, hdry, if_true]

/-- Witness for C3: a dry-run rename of an active record in an environment
whose provider cannot be resolved leaves the store intact, reports zero
rows, and returns both the merged record and the gate error. -/
theorem updateAuthMethod_dry_run_frame_witness :
    ((updateAuthMethod envBadProvider storeActive (some amRenamed) 2 ["Name"]
        ⟨false, true⟩).2 = storeActive ∧
     (updateAuthMethod envBadProvider storeActive (some amRenamed) 2 ["Name"]
        ⟨false, true⟩).1.rowsAffected = 0) ∧
    updateAuthMethod envBadProvider storeActive (some amRenamed) 2 ["Name"]
        ⟨false, true⟩ =
      ({ am := some (mergedOf amRenamed amActive ["Name"] false), rowsAffected := 0,
         err := completenessGate envBadProvider (mergedOf amRenamed amActive ["Name"] false)
                  false }, storeActive) ∧
    completenessGate envBadProvider (mergedOf amRenamed amActive ["Name"] false) false =
      some { code := ErrCode.InvalidParameter,
             msg := "AuthMethod cannot be converted to a valid OIDC Provider" } := by
  refine ⟨?_, ?_, by decide⟩
  · exact (updateAuthMethod_dry_run_frame envBadProvider storeActive (some amRenamed) 2
      ["Name"] ⟨false, true⟩ rfl).1 _ _ rfl
  · exact (updateAuthMethod_dry_run_frame envBadProvider storeActive (some amRenamed) 2
      ["Name"] ⟨false, true⟩ rfl).2 amRenamed amActive [] [] rfl (by decide) (by decide)
      (by decide) (by decide) (by decide)

/-- Claim C4: an otherwise-valid update whose merged record is active and
misses signing algorithms fails with InvalidParameter without force; with
force the same update succeeds and the stored record carries the
discovery-validation-bypass flag; and an update whose merged record is
inactive skips the completeness gate entirely. -/
theorem updateAuthMethod_activation_gate (env : DiscoveryEnv) (s : Store)
    (am orig : AuthMethod) (ev : Nat) (mask : List String) (adds dels : List ValueObject)
    (h1 : am.PublicId ≠ "") (h2 : mask ≠ [])
    (h3 : validateFieldMask mask = Except.ok ())
    (h4 : lookupAuthMethod s am.PublicId = some orig)
    (h5 : voChangesAll am.PublicId am orig mask = Except.ok (adds, dels)) :
    (isActiveState (mergedOf am orig mask false).OperationalState = true →
     (mergedOf am orig mask false).SigningAlgs = [] →
     ∃ e, (updateAuthMethod env s (some am) ev mask ⟨false, false⟩).1.err = some e ∧
       e.code = ErrCode.InvalidParameter) ∧
    (orig.Version = ev →
     (updateAuthMethod env s (some am) ev mask ⟨true, false⟩).1.err = none ∧
     ∃ stored,
       lookupAuthMethod (updateAuthMethod env s (some am) ev mask ⟨true, false⟩).2
         am.PublicId = some stored ∧
       stored.DisableDiscoveredConfigValidation = true) ∧
    (orig.Version = ev →
     isActiveState (mergedOf am orig mask false).OperationalState = false →
     (updateAuthMethod env s (some am) ev mask ⟨false, false⟩).1.err = none) := by
  refine ⟨?_, ?_, ?_⟩
  · intro hact halgs
    have hg : completenessGate env (mergedOf am orig mask false) false =
        some { code := ErrCode.InvalidParameter, msg := "missing signing algorithms" } := by
      simp [completenessGate, validateDiscoveryInfoRecord, hact, halgs]
    simp [updateAuthMethod, if_neg h1, if_neg h2, h3, h4, h5, hg]
  · intro hver
    have hg : completenessGate env (mergedOf am orig mask true) true = none := by
      simp [completenessGate]
    have hbeq := List.find?_some (show s.methods.find?
      (fun m => m.PublicId == am.PublicId) = some orig from h4)
    by_cases hno : (mergedOf am orig mask true = orig ∧ adds = [] ∧ dels = [])
    · have hres : updateAuthMethod env s (some am) ev mask ⟨true, false⟩ =
          ({ am := some orig, rowsAffected := 0, err := none }, s) := by
        simp [updateAuthMethod, if_neg h1, if_neg h2, h3, h4, h5, hg, if_pos hno]
      refine ⟨by rw [hres], ?_⟩
      rw [hres]
      refine ⟨orig, h4, ?_⟩
      exact hno.1 ▸ mergedOf_flag_true am orig mask
    · have hres : updateAuthMethod env s (some am) ev mask ⟨true, false⟩ =
          ({ am := some { mergedOf am orig mask true with Version := ev + 1 },
             rowsAffected := 1, err := none },
           storeUpdate s { mergedOf am orig mask true with Version := ev + 1 }) := by
        simp [updateAuthMethod, if_neg h1, if_neg h2, h3, h4, h5, hg, if_neg hno,
          if_pos hver]
      refine ⟨by rw [hres], ?_⟩
      rw [hres]
      refine ⟨{ mergedOf am orig mask true with Version := ev + 1 }, ?_, ?_⟩
      · exact lookup_storeUpdate h4
          ((mergedOf_PublicId am orig mask true).trans (eq_of_beq hbeq))
      · exact mergedOf_flag_true am orig mask
  · intro hver hinact
    have hg : completenessGate env (mergedOf am orig mask false) false = none := by
      simp [completenessGate, hinact]
    by_cases hno : (mergedOf am orig mask false = orig ∧ adds = [] ∧ dels = [])
    · simp [updateAuthMethod, if_neg h1, if_neg h2, h3, h4, h5, hg, if_pos hno]
    · simp [updateAuthMethod, if_neg h1, if_neg h2, h3, h4, h5, hg, if_neg hno,
        if_pos hver]

/-- Witness for C4: on a stored active record, masking SigningAlgs away
fails with InvalidParameter without force and succeeds with force leaving
the bypass flag set; an inactive no-algorithm update succeeds without
force. -/
theorem updateAuthMethod_activation_gate_witness :
    (∃ e, (updateAuthMethod envAllOk storeActive (some amSame) 2 ["SigningAlgs"]
             ⟨false, false⟩).1.err = some e ∧ e.code = ErrCode.InvalidParameter) ∧
    ((updateAuthMethod envAllOk storeActive (some amSame) 2 ["SigningAlgs"]
        ⟨true, false⟩).1.err = none ∧
     ∃ stored,
       lookupAuthMethod (updateAuthMethod envAllOk storeActive (some amSame) 2
           ["SigningAlgs"] ⟨true, false⟩).2 amSame.PublicId = some stored ∧
       stored.DisableDiscoveredConfigValidation = true) ∧
    ((updateAuthMethod envAllOk storeOne (some amSame) 1 ["SigningAlgs"]
        ⟨false, false⟩).1.err = none) := by
  refine ⟨?_, ?_, ?_⟩
  · exact (updateAuthMethod_activation_gate envAllOk storeActive amSame amActive 2
      ["SigningAlgs"] [] [ValueObject.SigningAlg "ampub1" "RS256"] (by decide) (by decide)
      (by decide) (by decide) (by decide)).1 (by decide) (by decide)
  · exact (updateAuthMethod_activation_gate envAllOk storeActive amSame amActive 2
      ["SigningAlgs"] [] [ValueObject.SigningAlg "ampub1" "RS256"] (by decide) (by decide)
      (by decide) (by decide) (by decide)).2.1 (by decide)
  · exact (updateAuthMethod_activation_gate envAllOk storeOne amSame amOrig 1
      ["SigningAlgs"] [] [ValueObject.SigningAlg "ampub1" "RS256"] (by decide) (by decide)
      (by decide) (by decide) (by decide)).2.2 (by decide) (by decide)

/-- Claim C7: an update whose mask sets every named attribute to its
current value (the merge reproduces the original record) skips the write:
it succeeds with zero rows affected, returns the stored record, and leaves
the store, including its audit log, untouched. -/
theorem updateAuthMethod_noop_short_circuit (env : DiscoveryEnv) (s : Store)
    (am orig : AuthMethod) (ev : Nat) (mask : List String) (adds dels : List ValueObject)
    (h1 : am.PublicId ≠ "") (h2 : mask ≠ [])
    (h3 : validateFieldMask mask = Except.ok ())
    (h4 : lookupAuthMethod s am.PublicId = some orig)
    (hm : applyUpdate am orig mask = orig)
    (h5 : voChangesAll am.PublicId am orig mask = Except.ok (adds, dels))
    (hgate : completenessGate env orig false = none) :
    updateAuthMethod env s (some am) ev mask ⟨false, false⟩ =
      ({ am := some orig, rowsAffected := 0, err := none }, s) := by
  obtain ⟨ha, hd⟩ := voChangesAll_noop hm h5
  subst ha
  subst hd
  have hmerged : mergedOf am orig mask false = orig := (mergedOf_false am orig mask).trans hm
  simp [updateAuthMethod, if_neg h1, if_neg h2, h3, h4, h5, hmerged, hgate]

/-- Witness for C7: a no-delta update of the stored record reports zero
rows, no error, the stored record, and an unchanged store. -/
theorem updateAuthMethod_noop_short_circuit_witness :
    updateAuthMethod envAllOk storeOne (some amSame) 1 ["Name"] ⟨false, false⟩ =
      ({ am := some amOrig, rowsAffected := 0, err := none }, storeOne) :=
  updateAuthMethod_noop_short_circuit envAllOk storeOne amSame amOrig 1 ["Name"] [] []
    (by decide) (by decide) (by decide) (by decide) (by decide) (by decide) (by decide)

/-- Helper: a mask containing an entry outside the recognized attribute
set makes the validator fail with the InvalidParameter error. -/
theorem validateFieldMask_error_of_bad {mask : List String} {f : String}
    (hf : f ∈ mask) (hb : f ∉ allowedMaskFields) :
    validateFieldMask mask = Except.error
      { code := ErrCode.InvalidParameter, msg := "invalid field mask" } := by
  induction mask with
  | nil => cases hf
  | cons g rest ih =>
    by_cases hg : allowedMaskFields.contains g = true
    · have hfr : f ∈ rest := by
        rcases List.mem_cons.mp hf with h | h
        · exact absurd (by rw [h]; exact List.elem_iff.mp hg) hb
        · exact h
      unfold validateFieldMask
      rw [if_pos hg]
      exact ih hfr
    · unfold validateFieldMask
      rw [if_neg hg]

/-- Claim C8: the field-mask validator accepts exactly the masks drawn
from the ten recognized attribute names, and any update whose mask
carries an entry outside that set is rejected with InvalidParameter
before any write, leaving the store unchanged. -/
theorem fieldMask_validator_spec :
    (∀ mask, validateFieldMask mask = Except.ok () ↔
       ∀ f ∈ mask, f ∈ allowedMaskFields) ∧
    (∀ (env : DiscoveryEnv) (s : Store) (amOpt : Option AuthMethod) (ev : Nat)
       (mask : List String) (opts : UpdateOpts) (f : String),
       f ∈ mask → f ∉ allowedMaskFields →
       ∀ r st, updateAuthMethod env s amOpt ev mask opts = (r, st) →
         st = s ∧ r.rowsAffected = 0 ∧
         ∃ e, r.err = some e ∧ e.code = ErrCode.InvalidParameter) := by
  constructor
  · intro mask
    induction mask with
    | nil => simp [validateFieldMask]
    | cons f rest ih =>
      by_cases hf : allowedMaskFields.contains f = true
      · have hvm : validateFieldMask (f :: rest) = validateFieldMask rest := by
          conv_lhs => rw [validateFieldMask]
          rw [if_pos hf]
        rw [hvm]
        constructor
        · intro h g hg
          rcases List.mem_cons.mp hg with h1 | h1
          · rw [h1]
            exact List.elem_iff.mp hf
          · exact ih.mp h g h1
        · intro hall
          exact ih.mpr fun g hg => hall g (List.mem_cons_of_mem f hg)
      · have hvm : validateFieldMask (f :: rest) = Except.error
            { code := ErrCode.InvalidParameter, msg := "invalid field mask" } := by
          unfold validateFieldMask
          rw [if_neg hf]
        rw [hvm]
        constructor
        · intro h
          cases h
        · intro hall
          exact absurd (List.elem_iff.mpr (hall f (List.mem_cons_self f rest))) hf
  · intro env s amOpt ev mask opts f hf hb r st hU
    have hvm := validateFieldMask_error_of_bad hf hb
    cases amOpt with
    | none =>
      simp only [updateAuthMethod] at hU
      injection hU with hu1 hu2
      subst hu1
      subst hu2
      exact ⟨rfl, rfl, _, rfl, rfl⟩
    | some am =>
      by_cases hid : am.PublicId = ""
      · simp only [updateAuthMethod, if_pos hid] at hU
        injection hU with hu1 hu2
        subst hu1
        subst hu2
        exact ⟨rfl, rfl, _, rfl, rfl⟩
      · have hmask : mask ≠ [] := by
          intro hmm
          rw [hmm] at hf
          cases hf
        simp only [updateAuthMethod, if_neg hid, if_neg hmask, hvm] at hU
        injection hU with hu1 hu2
        subst hu1
        subst hu2
        exact ⟨rfl, rfl, _, rfl, rfl⟩

/-- Witness for C8: the full ten-attribute mask is accepted, and the mask
consisting of CreateTime is rejected with InvalidParameter before any
write. -/
theorem fieldMask_validator_spec_witness :
    validateFieldMask ["Name", "Description", "DiscoveryUrl", "ClientId", "ClientSecret",
      "MaxAge", "SigningAlgs", "CallbackUrls", "AudClaims", "Certificates"] =
      Except.ok () ∧
    ((updateAuthMethod envAllOk storeOne (some amRenamed) 1 ["CreateTime"]
        ⟨false, false⟩).2 = storeOne ∧
     (updateAuthMethod envAllOk storeOne (some amRenamed) 1 ["CreateTime"]
        ⟨false, false⟩).1.rowsAffected = 0 ∧
     ∃ e, (updateAuthMethod envAllOk storeOne (some amRenamed) 1 ["CreateTime"]
        ⟨false, false⟩).1.err = some e ∧ e.code = ErrCode.InvalidParameter) := by
  constructor
  · exact (fieldMask_validator_spec.1 _).mpr (by decide)
  · exact fieldMask_validator_spec.2 envAllOk storeOne (some amRenamed) 1 ["CreateTime"]
      ⟨false, false⟩ "CreateTime" (by decide) (by decide) _ _ rfl

/-- Claim C9: `ValidateDiscoveryInfo` fails with InvalidParameter carrying
"missing signing algorithms" on a candidate with no signing algorithm,
with InvalidParameter when the candidate cannot be converted to a valid
provider, with an Unknown error carrying the transport detail when the
JWKS fetch fails, and with InvalidParameter when neither an in-memory
record nor a public id is supplied. -/
theorem validateDiscoveryInfo_errors (env : DiscoveryEnv) (s : Store) (am : AuthMethod)
    (pidOpt : Option String) :
    (am.SigningAlgs = [] →
       ValidateDiscoveryInfo env s (some am) pidOpt =
         Except.error { code := ErrCode.InvalidParameter,
                        msg := "missing signing algorithms" }) ∧
    (am.SigningAlgs ≠ [] → env.providerOk am.DiscoveryUrl = false →
       ValidateDiscoveryInfo env s (some am) pidOpt =
         Except.error { code := ErrCode.InvalidParameter,
                        msg := "AuthMethod cannot be converted to a valid OIDC Provider" }) ∧
    (∀ detail, am.SigningAlgs ≠ [] → env.providerOk am.DiscoveryUrl = true →
       env.jwksFailure am.DiscoveryUrl = some detail →
       ValidateDiscoveryInfo env s (some am) pidOpt =
         Except.error { code := ErrCode.Unknown, msg := detail }) ∧
    (ValidateDiscoveryInfo env s none none =
       Except.error { code := ErrCode.InvalidParameter,
                      msg := "you must supply either an auth method or a public id" }) := by
  refine ⟨?_, ?_, ?_, rfl⟩
  · intro halgs
    simp [ValidateDiscoveryInfo, validateDiscoveryInfoRecord, halgs]
  · intro halgs hprov
    have hne : am.SigningAlgs.isEmpty = false := by
      cases halg : am.SigningAlgs
      · exact absurd halg halgs
      · rfl
    simp [ValidateDiscoveryInfo, validateDiscoveryInfoRecord, hne, hprov]
  · intro detail halgs hprov hjwks
    have hne : am.SigningAlgs.isEmpty = false := by
      cases halg : am.SigningAlgs
      · exact absurd halg halgs
      · rfl
    simp [ValidateDiscoveryInfo, validateDiscoveryInfoRecord, hne, hprov, hjwks]

/-- Witness for C9: the four failure modes at concrete candidates. -/
theorem validateDiscoveryInfo_errors_witness :
    ValidateDiscoveryInfo envAllOk storeOne (some amNoAlgs) none =
      Except.error { code := ErrCode.InvalidParameter,
                     msg := "missing signing algorithms" } ∧
    ValidateDiscoveryInfo envBadProvider storeOne (some amOrig) none =
      Except.error { code := ErrCode.InvalidParameter,
                     msg := "AuthMethod cannot be converted to a valid OIDC Provider" } ∧
    ValidateDiscoveryInfo envNoJwks storeOne (some amOrig) none =
      Except.error { code := ErrCode.Unknown, msg := "non-200 response from jwks" } ∧
    ValidateDiscoveryInfo envAllOk storeOne none none =
      Except.error { code := ErrCode.InvalidParameter,
                     msg := "you must supply either an auth method or a public id" } :=
  ⟨(validateDiscoveryInfo_errors envAllOk storeOne amNoAlgs none).1 (by decide),
   (validateDiscoveryInfo_errors envBadProvider storeOne amOrig none).2.1 (by decide) rfl,
   (validateDiscoveryInfo_errors envNoJwks storeOne amOrig none).2.2.1
     "non-200 response from jwks" (by decide) rfl rfl,
   (validateDiscoveryInfo_errors envAllOk storeOne amOrig none).2.2.2⟩

end BoundaryOidc

namespace BoundaryDb

/-- Helper: reading the key just set returns the new value. -/
theorem mapGet_mapSet_self (m : List (String × String)) (k v : String) :
    mapGet (mapSet m k v) k = some v := by
  induction m with
  | nil => simp [mapSet, mapGet]
  | cons p rest ih =>
    obtain ⟨a, b⟩ := p
    by_cases h : a = k
    · subst h
      simpa [mapSet, List.filter_cons] using ih
    · have hb : (a == k) = false := by
        cases hc : a == k
        · rfl
        · exact absurd (eq_of_beq hc) h
      simpa [mapSet, List.filter_cons, hb, mapGet, h] using ih

/-- Helper: setting one key leaves reads of other keys unchanged. -/
theorem mapGet_mapSet_ne (m : List (String × String)) (k v q : String) (h : q ≠ k) :
    mapGet (mapSet m k v) q = mapGet m q := by
  induction m with
  | nil =>
    have hkq : k ≠ q := fun e => h e.symm
    simp [mapSet, mapGet, hkq]
  | cons p rest ih =>
    obtain ⟨a, b⟩ := p
    by_cases hak : a = k
    · subst hak
      have hq : a ≠ q := fun e => h e.symm
      simpa [mapSet, List.filter_cons, mapGet, hq] using ih
    · have hb : (a == k) = false := by
        cases hc : a == k
        · rfl
        · exact absurd (eq_of_beq hc) hak
      by_cases haq : a = q
      · subst haq
        simp [mapSet, List.filter_cons, hb, mapGet]
      · simpa [mapSet, List.filter_cons, hb, mapGet, haq] using ih

/-- Helper: inserting an appended run equals inserting the runs in
sequence. -/
theorem insertAll_append (m : List (String × String)) (k : String) (vs ws : List String) :
    insertAll m k (vs ++ ws) = insertAll (insertAll m k vs) k ws := by
  simp [insertAll, List.foldl_append]

/-- Helper: inserting under one key leaves reads of other keys
unchanged. -/
theorem mapGet_insertAll_ne (m : List (String × String)) (k : String) (vs : List String)
    (q : String) (h : q ≠ k) :
    mapGet (insertAll m k vs) q = mapGet m q := by
  induction vs generalizing m with
  | nil => rfl
  | cons v rest ih =>
    exact (ih (mapSet m k v)).trans (mapGet_mapSet_ne m k v q h)

/-- Helper: the inner loop body for one field equals inserting that
field's matches. -/
theorem applyPathField_eq (path : String) (m : List (String × String)) (fld : GoField) :
    applyPathField path m fld = insertAll m path (fieldMatches path fld) := by
  obtain ⟨name, kind⟩ := fld
  cases kind with
  | scalar v =>
    by_cases h : eqFold name path
    · simp [applyPathField, fieldMatches, insertAll, h]
    · simp [applyPathField, fieldMatches, insertAll, h]
  | structKind subs =>
    simp only [applyPathField, fieldMatches]
    induction subs generalizing m with
    | nil => rfl
    | cons sub rest ih =>
      by_cases h : eqFold sub.name path
      · simpa [List.filter_cons, h] using ih (mapSet m path sub.value)
      · simpa [List.filter_cons, h] using ih m

/-- Helper: the loop over the record's fields for one path equals
inserting all the record's matches for that path. -/
theorem applyPath_eq (rcd : List GoField) (m : List (String × String)) (path : String) :
    applyPath rcd m path = insertAll m path (matchingValues rcd path) := by
  induction rcd generalizing m with
  | nil => rfl
  | cons fld rest ih =>
    calc rest.foldl (applyPathField path) (applyPathField path m fld)
        = insertAll (applyPathField path m fld) path (matchingValues rest path) := ih _
      _ = insertAll (insertAll m path (fieldMatches path fld)) path
            (matchingValues rest path) := by rw [applyPathField_eq]
      _ = insertAll m path (fieldMatches path fld ++ matchingValues rest path) :=
            (insertAll_append m path _ _).symm
      _ = insertAll m path (matchingValues (fld :: rest) path) := by
            simp [matchingValues]

/-- Helper: paths never mentioning a key leave its reads unchanged. -/
theorem mapGet_foldl_paths_not_mem (rcd : List GoField) (paths : List String)
    (m : List (String × String)) (path : String) (h : path ∉ paths) :
    mapGet (paths.foldl (applyPath rcd) m) path = mapGet m path := by
  induction paths generalizing m with
  | nil => rfl
  | cons p rest ih =>
    obtain ⟨hne, hrest⟩ := BoundaryOidc.not_mem_cons_parts h
    have h1 : mapGet (applyPath rcd m p) path = mapGet m path := by
      rw [applyPath_eq]
      exact mapGet_insertAll_ne m p _ path (fun e => hne e.symm)
    exact (ih (applyPath rcd m p) hrest).trans h1

/-- Helper: a mask path with a unique matching field selects that field's
value in the updateFields map. -/
theorem mapGet_updateFields (rcd : List GoField) (paths : List String) (path v : String)
    (hmem : path ∈ paths) (huniq : matchingValues rcd path = [v]) :
    mapGet (updateFields rcd paths) path = some v := by
  have key : ∀ (ps : List String) (m : List (String × String)), path ∈ ps →
      mapGet (ps.foldl (applyPath rcd) m) path = some v := by
    intro ps
    induction ps with
    | nil =>
      intro m hm
      cases hm
    | cons p rest ih =>
      intro m hm
      by_cases hr : path ∈ rest
      · exact ih (applyPath rcd m p) hr
      · have hp : p = path := by
          rcases List.mem_cons.mp hm with h1 | h1
          · exact h1.symm
          · exact absurd h1 hr
        subst hp
        have h1 : mapGet (applyPath rcd m p) p = some v := by
          rw [applyPath_eq, huniq]
          exact mapGet_mapSet_self m p v
        exact (mapGet_foldl_paths_not_mem rcd rest (applyPath rcd m p) p hr).trans h1
  exact key paths [] hmem

/-- Claim C10: `GormReadWriter.Update` matches mask paths against field
names case-insensitively, including the sub-fields of an exported embedded
struct: a mask path with a unique matching field (its name equal up to
letter case) selects that field's value in the updates map; an empty mask
saves the entire record (followed by an empty updates map, the save block
not returning); a non-empty mask issues only the masked updates. -/
theorem gormUpdate_field_mask_spec (rcd : List GoField) (paths : List String)
    (path v : String) :
    (path ∈ paths → matchingValues rcd path = [v] →
       mapGet (updateFields rcd paths) path = some v) ∧
    gormUpdate rcd [] = [GormAction.save rcd, GormAction.updates []] ∧
    (paths ≠ [] → gormUpdate rcd paths = [GormAction.updates (updateFields rcd paths)]) := by
  refine ⟨fun hm hu => mapGet_updateFields rcd paths path v hm hu, rfl, ?_⟩
  intro h
  cases paths with
  | nil => exact absurd rfl h
  | cons p rest => rfl

/-- Witness for C10: on a concrete record, the lower-case paths publicid
and updatetime select the PublicId scalar and the embedded UpdateTime
sub-field, the empty mask saves the whole record, and a non-empty mask
issues only an updates call. -/
theorem gormUpdate_field_mask_spec_witness :
    mapGet (updateFields recW ["publicid", "updatetime"]) "publicid" = some "p1" ∧
    mapGet (updateFields recW ["publicid", "updatetime"]) "updatetime" = some "t1" ∧
    gormUpdate recW [] = [GormAction.save recW, GormAction.updates []] ∧
    gormUpdate recW ["publicid"] = [GormAction.updates (updateFields recW ["publicid"])] := by
  refine ⟨?_, ?_, ?_, ?_⟩
  · exact (gormUpdate_field_mask_spec recW ["publicid", "updatetime"] "publicid" "p1").1
      (by decide) (by decide)
  · exact (gormUpdate_field_mask_spec recW ["publicid", "updatetime"] "updatetime" "t1").1
      (by decide) (by decide)
  · exact (gormUpdate_field_mask_spec recW [] "x" "y").2.1
  · exact (gormUpdate_field_mask_spec recW ["publicid"] "x" "y").2.2 (by decide)

end BoundaryDb
